import Mathlib

/-!
Verification of the Safe Maintenance Engine of GK-Healter.

Shallow embedding of the python sources under `src/gk-healter/src/`
(`cleaner.py`, `distro_manager.py`, `utils.py`,
`auto_maintenance_manager.py`) and of
`src/pardus-system-cleaner/src/settings_manager.py` (the settings
collaborator whose `is_maintenance_due` the scheduler calls).

Python strings are embedded as Lean `String`; `str.startswith` is embedded
through the underlying character lists, `os.path.normpath` /
`os.path.abspath` are embedded segment by segment following CPython's
`posixpath` implementation.  Filesystem and subprocess effects are
embedded as explicit oracle parameters (functions passed to the
operations), so every operation is a pure, executable Lean function.
-/

namespace GKHealter

/-- Python `s.startswith(pre)`, embedded via the character lists. -/
def py_startswith (s pre : String) : Bool :=
  pre.data.isPrefixOf s.data

/-- Split a character list on the separator `/` exactly as Python
`path.split('/')` does (so `""` splits to `[""]`, `"/a"` to `["", "a"]`). -/
def splitSlash (l : List Char) : List (List Char) :=
  l.foldr
    (fun c acc =>
      if c = '/' then [] :: acc
      else
        match acc with
        | h :: t => (c :: h) :: t
        | [] => [[c]])
    [[]]

/-- The component-processing loop of CPython `posixpath.normpath`:
`new_comps` is kept in reverse (its head is Python's `new_comps[-1]`). -/
def normComps (initialSlashes : Bool) : List (List Char) → List (List Char) → List (List Char)
  | acc, [] => acc
  | acc, comp :: rest =>
    if comp = [] ∨ comp = ['.'] then
      normComps initialSlashes acc rest
    else if comp ≠ ['.', '.'] ∨ (¬ initialSlashes ∧ acc = []) ∨ acc.head? = some ['.', '.'] then
      normComps initialSlashes (comp :: acc) rest
    else
      match acc with
      | _ :: accTail => normComps initialSlashes accTail rest
      | [] => normComps initialSlashes acc rest

/-- CPython `posixpath.normpath` on a character list. -/
def normpathChars (p : List Char) : List Char :=
  if p = [] then ['.']
  else
    let initialSlashes : Nat :=
      if p.take 1 = ['/'] then
        if p.take 2 = ['/', '/'] ∧ p.take 3 ≠ ['/', '/', '/'] then 2 else 1
      else 0
    let comps := splitSlash p
    let newComps := (normComps (initialSlashes ≠ 0) [] comps).reverse
    let joined := (newComps.intersperse ['/']).flatten
    let res := List.replicate initialSlashes '/' ++ joined
    if res = [] then ['.'] else res

/-- Python `os.path.normpath` (posix flavour). -/
def normpath (p : String) : String :=
  ⟨normpathChars p.data⟩

/-- Python `posixpath.join` for two arguments (enough for `abspath`):
an absolute second argument replaces the first. -/
def py_join (a b : String) : String :=
  if py_startswith b "/" then b
  else if a = "" ∨ a.data.getLast? = some '/' then a ++ b
  else a ++ "/" ++ b

/-- Python `os.path.abspath`: join with the working directory, then
normalize.  The working directory is an explicit parameter. -/
def abspath (cwd p : String) : String :=
  normpath (py_join cwd p)

/-! ## `distro_manager.py` -/

/-- The package managers `DistroManager._detect_pkg_manager` can report
(`"apt"`, `"pacman"`, `"dnf"`, `"zypper"`, `"yum"`, `"unknown"`). -/
inductive PkgManager where
  | apt
  | pacman
  | dnf
  | zypper
  | yum
  | unknown
deriving DecidableEq, Repr

/-- `DistroManager.get_package_cache_paths`: the fixed
`(key, path, description_key)` table of the detected manager. -/
def get_package_cache_paths : PkgManager → List (String × String × String)
  | .apt =>
      [("cat_pkg_cache", "/var/cache/apt/archives", "desc_pkg_cache"),
       ("cat_autoremove", "/usr/bin/apt", "desc_autoremove")]
  | .pacman =>
      [("cat_pkg_cache", "/var/cache/pacman/pkg", "desc_pkg_cache"),
       ("cat_autoremove", "/usr/bin/pacman", "desc_unused_deps")]
  | .dnf =>
      [("cat_pkg_cache", "/var/cache/dnf", "desc_pkg_cache"),
       ("cat_autoremove", "/usr/bin/dnf", "desc_autoremove")]
  | .zypper =>
      [("cat_pkg_cache", "/var/cache/zypp/packages", "desc_pkg_cache"),
       ("cat_autoremove", "/usr/bin/zypper", "desc_autoremove")]
  | _ => []

/-- `DistroManager.get_clean_command`: exact privileged command for a
recognized path or marker of the detected manager, `[]` otherwise. -/
def get_clean_command (pm : PkgManager) (path : String) : List String :=
  match pm with
  | .apt =>
      if path == "/var/cache/apt/archives" then ["pkexec", "apt-get", "clean"]
      else if path == "/usr/bin/apt" then ["pkexec", "apt-get", "autoremove", "-y"]
      else []
  | .pacman =>
      if path == "/var/cache/pacman/pkg" then ["pkexec", "pacman", "-Scc", "--noconfirm"]
      else if path == "/usr/bin/pacman" then
        ["sh", "-c", "pacman -Qtdq | xargs -r pkexec pacman -Rns --noconfirm"]
      else []
  | .dnf =>
      if path == "/var/cache/dnf" then ["pkexec", "dnf", "clean", "all"]
      else if path == "/usr/bin/dnf" then ["pkexec", "dnf", "autoremove", "-y"]
      else []
  | .zypper =>
      if path == "/var/cache/zypp/packages" then ["pkexec", "zypper", "clean", "--all"]
      else if path == "/usr/bin/zypper" then []
      else []
  | _ => []

/-! ## `cleaner.py`: the safety validator -/

/-- The forbidden prefix list of `SystemCleaner.is_safe_to_delete`. -/
def forbidden_paths : List String :=
  ["/bin", "/boot", "/dev", "/etc", "/lib", "/proc", "/sys",
   "/usr/bin", "/usr/lib", "/usr/sbin"]

/-- The `allowed_system` list of `is_safe_to_delete`: the two generic
system categories plus every path of the detected manager's table. -/
def allowed_system (pm : PkgManager) : List String :=
  ["/var/log", "/var/lib/systemd/coredump"]
    ++ (get_package_cache_paths pm).map (fun e => e.2.1)

/-- The `allowed_user` list: `os.path.expanduser("~/.cache")`, with the
home directory an explicit parameter. -/
def allowed_user (home : String) : List String :=
  [home ++ "/.cache"]

/-- `SystemCleaner.is_safe_to_delete`: deny on a forbidden prefix first,
then allow on exact match, separator-bounded prefix, or bare prefix of an
allowed entry. -/
def is_safe_to_delete (pm : PkgManager) (home cwd : String) (p : String) : Bool :=
  let path := abspath cwd p
  if forbidden_paths.any (fun f => py_startswith path f) then false
  else
    (allowed_system pm ++ allowed_user home).any
      (fun a => path == a || py_startswith path (a ++ "/") || py_startswith path a)

/-! ## `utils.py`: the size calculator

`get_size` walks the real filesystem; the walk is embedded as an explicit
model: the list of files `os.walk` yields (in order), each with its
`islink` flag and the outcome of `os.path.getsize` (`none` = the stat
raised), plus the point at which the walk itself raised `PermissionError`
(`some k` = after the first `k` files; `some 0` = a permission error on
the root path). -/

/-- One file yielded by the walk: its `islink` flag and the result of
`os.path.getsize` (`none` when the stat raises). -/
structure WalkEntry where
  name : String
  islink : Bool
  size? : Option Nat
deriving Repr, DecidableEq

/-- The modelled walk of one root path. -/
structure WalkModel where
  files : List WalkEntry
  abortedAfter : Option Nat
deriving Repr

/-- The files the `get_size` loop actually processes before a
`PermissionError` (if any) interrupts the walk. -/
def walkProcessed (w : WalkModel) : List WalkEntry :=
  match w.abortedAfter with
  | some k => w.files.take k
  | none => w.files

/-- `utils.get_size`: sum `getsize` over non-symlink files, swallowing
per-file stat failures; a `PermissionError` ends the walk, keeping the
partial sum (0 when it hits the root). -/
def get_size (w : WalkModel) : Nat :=
  (walkProcessed w).foldl
    (fun total f =>
      if ¬ f.islink then
        match f.size? with
        | some n => total + n
        | none => total
      else total)
    0

/-! ## `cleaner.py`: catalog, scanner and orchestrator -/

/-- One entry of `SystemCleaner.categories`:
`(name_key, path, is_system, desc_key)`. -/
structure Category where
  name : String
  path : String
  system : Bool
  desc : String
deriving Repr, DecidableEq

/-- One scan-result dictionary produced by `SystemCleaner.scan`. -/
structure ScanResult where
  category : String
  path : String
  size_str : String
  size_bytes : Nat
  system : Bool
  desc : String
deriving Repr, DecidableEq

/-- `SystemCleaner.scan`: keep, in catalog order, the categories whose
path exists with positive measured size.  `tr` embeds the translation
function `_`, `ex` embeds `os.path.exists`, `size` embeds `get_size` on
the live filesystem and `fmt` embeds `format_size` (which uses host
floating-point formatting and is therefore kept abstract). -/
def scan (tr : String → String) (ex : String → Bool) (size : String → Nat)
    (fmt : Nat → String) (cats : List Category) : List ScanResult :=
  cats.foldr
    (fun c acc =>
      if ex c.path then
        let sb := size c.path
        if sb > 0 then
          { category := tr c.name, path := c.path, size_str := fmt sb,
            size_bytes := sb, system := c.system, desc := tr c.desc } :: acc
        else acc
      else acc)
    []

/-- The scan-result dictionary `scan` builds for one kept category. -/
def mkScanResult (tr : String → String) (size : String → Nat)
    (fmt : Nat → String) (c : Category) : ScanResult :=
  { category := tr c.name, path := c.path, size_str := fmt (size c.path),
    size_bytes := size c.path, system := c.system, desc := tr c.desc }

/-- Classified message keys of `cleaner.py` (the `_()` translation is
embedded as the identity on the key, `.format` as concatenation). -/
def err_file_delete (f e : String) : String := "err_file_delete: " ++ f ++ " " ++ e

/-- `err_user_clean_fail` message. -/
def err_user_clean_fail (path e : String) : String := "err_user_clean_fail: " ++ path ++ " " ++ e

/-- `err_unknown_sys_path` message. -/
def err_unknown_sys_path (path : String) : String := "err_unknown_sys_path: " ++ path

/-- `err_unexpected` message. -/
def err_unexpected (path e : String) : String := "err_unexpected: " ++ path ++ " " ++ e

/-- `err_auth_cancelled` message. -/
def err_auth_cancelled (path : String) : String := "err_auth_cancelled: " ++ path

/-- `err_sys_clean_code` message. -/
def err_sys_clean_code (code : Int) (path : String) : String :=
  "err_sys_clean_code: " ++ toString code ++ " " ++ path

/-- The user-space filesystem oracle of `_clean_user`: `isFile`/`isDir`
embed `os.path.isfile`/`os.path.isdir`, `walkFiles` the files yielded
under a directory by `os.walk`, and `removeResult` the outcome of
`os.remove` (`some e` = it raises with message `e`). -/
structure UserFS where
  isFile : String → Bool
  isDir : String → Bool
  walkFiles : String → List String
  removeResult : String → Option String

/-- The inner loop of `_clean_user` over the walked files: the first
failing `os.remove` returns `(False, err_file_delete ...)` at once. -/
def clean_user_walk (fs : UserFS) : List String → Bool × Option String
  | [] => (true, none)
  | f :: rest =>
    match fs.removeResult f with
    | none => clean_user_walk fs rest
    | some e => (false, some (err_file_delete f e))

/-- `SystemCleaner._clean_user`: remove a file, or every file under a
directory; a path that is neither is a no-op success. -/
def clean_user (fs : UserFS) (path : String) : Bool × Option String :=
  if fs.isFile path then
    match fs.removeResult path with
    | none => (true, none)
    | some e => (false, some (err_user_clean_fail path e))
  else if fs.isDir path then
    clean_user_walk fs (fs.walkFiles path)
  else (true, none)

/-- Outcome of `subprocess.run(cmd, check=True, timeout=120)`:
normal return, `TimeoutExpired`, `CalledProcessError(code)`, or any
other exception. -/
inductive RunOutcome where
  | ok
  | timeout
  | exit (code : Int)
  | exc (msg : String)
deriving Repr, DecidableEq

/-- The fixed shell pipeline `_clean_system` runs for `/var/log`. -/
def var_log_shell : String :=
  "find /var/log -type f -regex '.*\\.\\(gz\\|[0-9]+\\)$' -delete && find /var/log -type f -name '*.log' -exec truncate -s 0 \x7b\x7d + && journalctl --vacuum-time=1s"

/-- `SystemCleaner._clean_system`: resolve the privileged command
(distro-specific first, then the two generic system paths), run it
through the subprocess oracle, and classify the outcome. -/
def clean_system (pm : PkgManager) (run : List String → RunOutcome)
    (path : String) : Bool × Option String :=
  let distro_cmd := get_clean_command pm path
  let cmd : List String :=
    if distro_cmd ≠ [] then distro_cmd
    else if path == "/var/log" then ["pkexec", "sh", "-c", var_log_shell]
    else if path == "/var/lib/systemd/coredump" then
      ["pkexec", "sh", "-c", "rm -rf /var/lib/systemd/coredump/*"]
    else []
  if cmd = [] then (false, some (err_unknown_sys_path path))
  else
    match run cmd with
    | .ok => (true, none)
    | .timeout => (false, some (err_unexpected path "Operation timed out"))
    | .exit c =>
      if c = 126 ∨ c = 127 then (false, some (err_auth_cancelled path))
      else (false, some (err_sys_clean_code c path))
    | .exc m => (false, some (err_unexpected path m))

/-- One selected item handed to `SystemCleaner.clean` (the fields of the
scan dictionary it reads: `'path'` and `'system'`). -/
structure CleanItem where
  path : String
  system : Bool
deriving Repr, DecidableEq

/-- The loop of `SystemCleaner.clean` with its three accumulators.  A
safety-rejected item only increments `fail_count` (the warning is logged,
not appended); a failed deletion appends its message when there is one. -/
def cleanLoop (pm : PkgManager) (home cwd : String) (fs : UserFS)
    (run : List String → RunOutcome) :
    List CleanItem → Nat → Nat → List String → Nat × Nat × List String
  | [], s, f, errs => (s, f, errs)
  | item :: rest, s, f, errs =>
    if ¬ is_safe_to_delete pm home cwd item.path then
      cleanLoop pm home cwd fs run rest s (f + 1) errs
    else
      let r := if item.system then clean_system pm run item.path else clean_user fs item.path
      if r.1 then cleanLoop pm home cwd fs run rest (s + 1) f errs
      else cleanLoop pm home cwd fs run rest s (f + 1) (errs ++ r.2.toList)

/-- `SystemCleaner.clean`: returns
`(success_count, fail_count, error_messages)`. -/
def clean (pm : PkgManager) (home cwd : String) (fs : UserFS)
    (run : List String → RunOutcome) (items : List CleanItem) :
    Nat × Nat × List String :=
  cleanLoop pm home cwd fs run items 0 0 []

/-! ## Scheduler: `auto_maintenance_manager.py` with
`settings_manager.py` (`is_maintenance_due`) -/

/-- The `last_maintenance_date` setting as `is_maintenance_due` consumes
it: absent/empty, unparseable, or parsed with `(now - last_date).days`
already taken relative to the evaluation instant. -/
inductive LastMaint where
  | never
  | unparseable
  | parsed (elapsedDays : Int)
deriving Repr, DecidableEq

/-- The settings keys the scheduler reads (read-only to the core). -/
structure MaintSettings where
  auto_maintenance_enabled : Bool
  check_ac_power : Bool
  idle_threshold_minutes : Nat
  disk_threshold_enabled : Bool
  disk_threshold_percent : Int
  maintenance_frequency_days : Int
  last_maintenance : LastMaint
deriving Repr, DecidableEq

/-- The environment sampled during one evaluation: AC power, idle
seconds, measured disk usage percentage, and today's calendar day. -/
structure SchedEnv where
  onACPower : Bool
  idleSeconds : Nat
  diskUsagePercent : Int
  today : Nat
deriving Repr, DecidableEq

/-- `SettingsManager.is_maintenance_due`: enabled, and never run /
unparseable date / at least `maintenance_frequency_days` elapsed. -/
def is_maintenance_due (s : MaintSettings) : Bool :=
  if ¬ s.auto_maintenance_enabled then false
  else
    match s.last_maintenance with
    | .never => true
    | .unparseable => true
    | .parsed d => d ≥ s.maintenance_frequency_days

/-- `AutoMaintenanceManager.can_run_maintenance`: gate on enabled, AC
power and idle time; then the once-per-day disk-threshold branch; then
the interval check.  Returns the decision together with the updated
`last_disk_check_date`. -/
def can_run_maintenance (s : MaintSettings) (env : SchedEnv)
    (forceDiskCheck : Bool) (lastDiskCheckDate : Option Nat) :
    Bool × Option Nat :=
  if ¬ s.auto_maintenance_enabled then (false, lastDiskCheckDate)
  else if s.check_ac_power ∧ ¬ env.onACPower then (false, lastDiskCheckDate)
  else if env.idleSeconds < s.idle_threshold_minutes * 60 then (false, lastDiskCheckDate)
  else if forceDiskCheck ∧ s.disk_threshold_enabled ∧ lastDiskCheckDate ≠ some env.today
      ∧ env.diskUsagePercent ≥ s.disk_threshold_percent then
    (true, some env.today)
  else (is_maintenance_due s, lastDiskCheckDate)

/-! ## Concrete sample instances used by scenario theorems and witnesses -/

/-- A settings sample: maintenance enabled, AC power required, 15-minute
idle threshold, disk threshold 90%, 30-day interval, last run 3 days ago
(so the ordinary interval has NOT elapsed). -/
def sampleSettings : MaintSettings :=
  { auto_maintenance_enabled := true, check_ac_power := true,
    idle_threshold_minutes := 15, disk_threshold_enabled := true,
    disk_threshold_percent := 90, maintenance_frequency_days := 30,
    last_maintenance := .parsed 3 }

/-- An environment sample: on mains, idle 20 minutes, disk at 96%. -/
def sampleEnv : SchedEnv :=
  { onACPower := true, idleSeconds := 1200, diskUsagePercent := 96, today := 20000 }

/-- A user-space filesystem sample for the orchestrator scenario: the
thumbnails cache is a directory holding one removable file; every
`os.remove` succeeds. -/
def scenarioFS : UserFS :=
  { isFile := fun _ => false,
    isDir := fun p => p == "/home/user/.cache/thumbnails",
    walkFiles := fun _ => ["junk1.txt"],
    removeResult := fun _ => none }

/-- A subprocess sample: every privileged command exits with code 126
(`pkexec` authorization cancelled). -/
def scenarioRun : List String → RunOutcome := fun _ => .exit 126

/-- The three-item batch of the spec's orchestrator scenario: one item
failing safety validation, one user-space success, one privileged
command cancelled. -/
def scenarioItems : List CleanItem :=
  [{ path := "/opt/junk", system := false },
   { path := "/home/user/.cache/thumbnails", system := false },
   { path := "/var/cache/apt/archives", system := true }]

/-! ## Helper lemmas -/

/-- Every string is a prefix of itself. -/
theorem py_startswith_refl (s : String) : py_startswith s s = true := by
  simp [py_startswith, List.isPrefixOf_iff_prefix]

/-- A prefix extended by `"/"` is still a witness for the plain prefix. -/
theorem py_startswith_of_append_slash (q a : String)
    (h : py_startswith q (a ++ "/") = true) : py_startswith q a = true := by
  simp only [py_startswith, List.isPrefixOf_iff_prefix, String.data_append] at h ⊢
  exact (List.prefix_append a.data "/".data).trans h

/-- The three-way allow disjunct of `is_safe_to_delete` collapses to the
bare prefix test: the bare `startswith` subsumes the exact-equality and
separator-bounded alternatives. -/
theorem allow_disjunct_eq (q a : String) :
    (q == a || py_startswith q (a ++ "/") || py_startswith q a) = py_startswith q a := by
  cases hs : py_startswith q a with
  | true => simp [hs]
  | false =>
    have h1 : (q == a) = false := by
      refine beq_eq_false_iff_ne.mpr ?_
      rintro rfl
      rw [py_startswith_refl] at hs
      exact Bool.noConfusion hs
    have h2 : py_startswith q (a ++ "/") = false := by
      cases hp : py_startswith q (a ++ "/") with
      | true => rw [py_startswith_of_append_slash q a hp] at hs; exact Bool.noConfusion hs
      | false => rfl
    simp [hs, h1, h2]

/-! ## Claim theorems -/

/-- C1: code evaluation at the failing input.  The autoremove marker
`"/usr/bin/apt"` is registered in the apt table of
`get_package_cache_paths` (and hence in the allow-list of
`is_safe_to_delete`), yet `is_safe_to_delete` rejects it: the forbidden
prefix `"/usr/bin"` is checked first and cannot be overridden, so the
code contradicts the claim (and the repository's own test
`test_apt_marker_path_allowed`). -/
theorem apt_marker_rejected_despite_registration :
    ("cat_autoremove", "/usr/bin/apt", "desc_autoremove") ∈ get_package_cache_paths .apt
      ∧ is_safe_to_delete .apt "/home/user" "/" "/usr/bin/apt" = false := by
  constructor
  · decide
  · decide

/-- C2: counterexample.  `"/var/logs"` is not equal to any allow-list
entry and is not a separator-bounded descendant of one, yet
`is_safe_to_delete` accepts it, because the allow loop also tests the
bare string prefix `path.startswith(a)` and `"/var/logs"` extends the
allowed entry `"/var/log"` without a separator. -/
theorem sibling_prefix_accepted_counterexample :
    ((allowed_system .apt ++ allowed_user "/home/user").all
        (fun a => !("/var/logs" == a || py_startswith "/var/logs" (a ++ "/")))) = true
      ∧ is_safe_to_delete .apt "/home/user" "/" "/var/logs" = true := by
  constructor
  · decide
  · decide

/-- C2 amended: `is_safe_to_delete` permits exactly the paths whose
canonical form avoids every forbidden prefix and starts — as a bare
string prefix, separator not required — with some allow-list entry;
exact equality and separator-bounded descent are special cases of that
bare prefix test, and a path matching no entry is rejected (no default
allow). -/
theorem is_safe_to_delete_characterization (pm : PkgManager) (home cwd p : String) :
    is_safe_to_delete pm home cwd p =
      (!(forbidden_paths.any (fun f => py_startswith (abspath cwd p) f))
        && ((allowed_system pm ++ allowed_user home).any
              (fun a => py_startswith (abspath cwd p) a))) := by
  unfold is_safe_to_delete
  simp only [allow_disjunct_eq]
  cases hf : forbidden_paths.any (fun f => py_startswith (abspath cwd p) f) <;> simp [hf]

/-- C3: a path whose canonical form starts with one of the fixed
forbidden system-root prefixes is rejected for every package manager and
every home directory: the deny check runs before the allow loop and no
allow-list entry (markers included) can override it. -/
theorem forbidden_prefix_always_rejected (pm : PkgManager) (home cwd p : String)
    (h : forbidden_paths.any (fun f => py_startswith (abspath cwd p) f) = true) :
    is_safe_to_delete pm home cwd p = false := by
  unfold is_safe_to_delete
  simp [h]

/-- C3 witness: `/etc/passwd` canonically starts with the forbidden
prefix `/etc` and is rejected under the apt manager. -/
theorem forbidden_prefix_always_rejected_witness :
    (forbidden_paths.any (fun f => py_startswith (abspath "/" "/etc/passwd") f) = true)
      ∧ is_safe_to_delete .apt "/home/user" "/" "/etc/passwd" = false :=
  ⟨by decide, forbidden_prefix_always_rejected .apt "/home/user" "/" "/etc/passwd" (by decide)⟩

/-- C4: canonicalization defeats `..` traversal.  For every package
manager and every allowed directory or marker `D` of that session
(including the user cache root), `is_safe_to_delete` rejects
`D ++ "/../../etc/passwd"`: the argument is normalized by `abspath`
before any comparison, so the textual allowed prefix does not survive
the escape. -/
theorem traversal_escape_rejected :
    ∀ pm : PkgManager,
      ((allowed_system pm ++ allowed_user "/home/user").all
          (fun D => !(is_safe_to_delete pm "/home/user" "/" (D ++ "/../../etc/passwd")))) = true := by
  intro pm
  cases pm <;> decide

/-- C6: the disk-threshold trigger fires at most once per calendar day.
When the gates (enabled, power, idle) pass, a disk-triggered evaluation
with the feature enabled, `last_disk_check_date` not today and usage at
or above the threshold returns true and stamps today — independently of
the interval condition `is_maintenance_due`; and every further
evaluation the same day, disk-triggered or not, skips the disk branch
and returns exactly the interval condition. -/
theorem disk_trigger_once_per_day (s : MaintSettings) (env : SchedEnv) (d0 : Option Nat)
    (hen : s.auto_maintenance_enabled = true)
    (hac : s.check_ac_power = true → env.onACPower = true)
    (hidle : s.idle_threshold_minutes * 60 ≤ env.idleSeconds)
    (hdt : s.disk_threshold_enabled = true)
    (hday : d0 ≠ some env.today)
    (husage : s.disk_threshold_percent ≤ env.diskUsagePercent) :
    can_run_maintenance s env true d0 = (true, some env.today)
      ∧ ∀ force, can_run_maintenance s env force (some env.today)
          = (is_maintenance_due s, some env.today) := by
  have hpow : ¬ (s.check_ac_power = true ∧ ¬ env.onACPower = true) := by
    rintro ⟨h1, h2⟩
    exact h2 (hac h1)
  have hnidle : ¬ (env.idleSeconds < s.idle_threshold_minutes * 60) := not_lt.mpr hidle
  have hnen : ¬ ¬ s.auto_maintenance_enabled = true := by simp [hen]
  constructor
  · unfold can_run_maintenance
    rw [if_neg hnen, if_neg hpow, if_neg hnidle, if_pos ⟨rfl, hdt, hday, husage⟩]
  · intro force
    unfold can_run_maintenance
    rw [if_neg hnen, if_neg hpow, if_neg hnidle, if_neg ?_]
    rintro ⟨-, -, h, -⟩
    exact h rfl

/-- C6 witness: at 96% usage against a 90% threshold, with the last run
only 3 days into a 30-day interval (so `is_maintenance_due` is false) and
no disk check yet today, the disk-triggered evaluation fires and stamps
the day; re-evaluating the same day yields the (failing) interval
condition. -/
theorem disk_trigger_once_per_day_witness :
    can_run_maintenance sampleSettings sampleEnv true none = (true, some 20000)
      ∧ can_run_maintenance sampleSettings sampleEnv true (some 20000)
          = (is_maintenance_due sampleSettings, some 20000)
      ∧ is_maintenance_due sampleSettings = false :=
  ⟨(disk_trigger_once_per_day sampleSettings sampleEnv none rfl (fun _ => rfl)
      (by decide) rfl (by decide) (by decide)).1,
   (disk_trigger_once_per_day sampleSettings sampleEnv none rfl (fun _ => rfl)
      (by decide) rfl (by decide) (by decide)).2 true,
   by decide⟩

/-- C7: counterexample.  The zypper table registers the autoremove
marker `"/usr/bin/zypper"`, yet `get_clean_command` resolves it to the
empty vector, so "every entry in the table resolves to a non-empty
command" is false. -/
theorem zypper_marker_unresolvable_counterexample :
    ("cat_autoremove", "/usr/bin/zypper", "desc_autoremove") ∈ get_package_cache_paths .zypper
      ∧ get_clean_command .zypper "/usr/bin/zypper" = [] := by
  constructor
  · decide
  · decide

/-- C7 amended: every entry of the detected manager's cache-paths table
resolves to a non-empty exact command vector, except the zypper
autoremove marker, which resolves to the empty vector; and every input
not in the table resolves to the empty vector ("not resolvable"). -/
theorem resolve_command_table :
    (∀ pm : PkgManager,
        ((get_package_cache_paths pm).all
            (fun e => !(get_clean_command pm e.2.1).isEmpty
              || (pm == PkgManager.zypper && e.2.1 == "/usr/bin/zypper"))) = true)
      ∧ (∀ pm : PkgManager, ∀ p : String,
          (∀ e ∈ get_package_cache_paths pm, p ≠ e.2.1) → get_clean_command pm p = []) := by
  constructor
  · intro pm
    cases pm <;> decide
  · intro pm p h
    cases pm with
    | apt =>
      have h1 : p ≠ "/var/cache/apt/archives" := h ("cat_pkg_cache", "/var/cache/apt/archives", "desc_pkg_cache") (by decide)
      have h2 : p ≠ "/usr/bin/apt" := h ("cat_autoremove", "/usr/bin/apt", "desc_autoremove") (by decide)
      simp [get_clean_command, beq_eq_false_iff_ne.mpr h1, beq_eq_false_iff_ne.mpr h2]
    | pacman =>
      have h1 : p ≠ "/var/cache/pacman/pkg" := h ("cat_pkg_cache", "/var/cache/pacman/pkg", "desc_pkg_cache") (by decide)
      have h2 : p ≠ "/usr/bin/pacman" := h ("cat_autoremove", "/usr/bin/pacman", "desc_unused_deps") (by decide)
      simp [get_clean_command, beq_eq_false_iff_ne.mpr h1, beq_eq_false_iff_ne.mpr h2]
    | dnf =>
      have h1 : p ≠ "/var/cache/dnf" := h ("cat_pkg_cache", "/var/cache/dnf", "desc_pkg_cache") (by decide)
      have h2 : p ≠ "/usr/bin/dnf" := h ("cat_autoremove", "/usr/bin/dnf", "desc_autoremove") (by decide)
      simp [get_clean_command, beq_eq_false_iff_ne.mpr h1, beq_eq_false_iff_ne.mpr h2]
    | zypper =>
      have h1 : p ≠ "/var/cache/zypp/packages" := h ("cat_pkg_cache", "/var/cache/zypp/packages", "desc_pkg_cache") (by decide)
      have h2 : p ≠ "/usr/bin/zypper" := h ("cat_autoremove", "/usr/bin/zypper", "desc_autoremove") (by decide)
      simp [get_clean_command, beq_eq_false_iff_ne.mpr h1, beq_eq_false_iff_ne.mpr h2]
    | yum => simp [get_clean_command]
    | unknown => simp [get_clean_command]

/-- C7 witness: a path in nobody's table resolves to the empty vector
under apt, and the apt cache path (an entry of the apt table) resolves
to a non-empty vector. -/
theorem resolve_command_table_witness :
    get_clean_command .apt "/opt/not-in-table" = []
      ∧ ((get_package_cache_paths .apt).all
          (fun e => !(get_clean_command .apt e.2.1).isEmpty
            || (PkgManager.apt == PkgManager.zypper && e.2.1 == "/usr/bin/zypper"))) = true :=
  ⟨resolve_command_table.2 .apt "/opt/not-in-table" (by decide),
   resolve_command_table.1 .apt⟩

/-- Unfolding equation of `scan` on a cons cell. -/
theorem scan_cons (tr : String → String) (ex : String → Bool) (size : String → Nat)
    (fmt : Nat → String) (c : Category) (cs : List Category) :
    scan tr ex size fmt (c :: cs)
      = if ex c.path then
          (if 0 < size c.path then mkScanResult tr size fmt c :: scan tr ex size fmt cs
           else scan tr ex size fmt cs)
        else scan tr ex size fmt cs := rfl

/-- C8: `scan` returns exactly the catalog categories whose path exists
and whose measured size is positive, in catalog order, each carrying its
measured size; consequently every returned result has `size_bytes > 0`.
The embedding is a pure function of the read-only oracles `ex`/`size`,
so it performs no deletion or modification by construction. -/
theorem scan_keeps_exactly_nonempty_existing (tr : String → String) (ex : String → Bool)
    (size : String → Nat) (fmt : Nat → String) (cats : List Category) :
    scan tr ex size fmt cats
        = (cats.filter (fun c => ex c.path && decide (0 < size c.path))).map
            (mkScanResult tr size fmt)
      ∧ ((scan tr ex size fmt cats).all (fun r => decide (0 < r.size_bytes))) = true := by
  have h1 : scan tr ex size fmt cats
      = (cats.filter (fun c => ex c.path && decide (0 < size c.path))).map
          (mkScanResult tr size fmt) := by
    induction cats with
    | nil => rfl
    | cons c cs ih =>
      rw [scan_cons, List.filter_cons]
      by_cases hex : ex c.path = true
      · by_cases hsz : 0 < size c.path
        · rw [if_pos hex, if_pos hsz, ih, if_pos (by simp [hex, hsz])]
          rfl
        · rw [if_pos hex, if_neg hsz, ih, if_neg (by simp [hex, hsz])]
      · rw [if_neg (by simp [hex]), ih, if_neg (by simp [hex])]
  refine ⟨h1, ?_⟩
  rw [h1, List.all_eq_true]
  intro r hr
  rcases List.mem_map.mp hr with ⟨c, hc, rfl⟩
  rcases List.mem_filter.mp hc with ⟨-, hpos⟩
  simpa [mkScanResult] using (Bool.and_eq_true _ _).mp hpos |>.2

/-- C9: the size calculator is a total best-effort measurement: it equals
the sum, over the files the walk processed, of each file's stat result —
a symlinked entry contributes nothing (skipped, never followed), a failed
stat contributes nothing without aborting the rest of the walk — and a
permission error on the root path (a walk aborted before any file)
yields 0.  Totality and non-negativity hold by construction: the
embedding returns a `Nat` for every modelled walk. -/
theorem get_size_total_best_effort (w : WalkModel) :
    get_size w
        = ((walkProcessed w).map
            (fun f => if f.islink then 0 else f.size?.getD 0)).sum
      ∧ (∀ files, get_size ⟨files, some 0⟩ = 0) := by
  constructor
  · have step : ∀ (l : List WalkEntry) (n : Nat),
        l.foldl
            (fun total f =>
              if ¬ f.islink then
                match f.size? with
                | some k => total + k
                | none => total
              else total)
            n
          = n + (l.map (fun f => if f.islink then 0 else f.size?.getD 0)).sum := by
      intro l
      induction l with
      | nil => intro n; simp
      | cons f fs ih =>
        intro n
        rw [List.foldl_cons, ih, List.map_cons, List.sum_cons]
        cases hl : f.islink with
        | true => simp [hl]
        | false => cases hs : f.size? <;> simp [hl, hs, Nat.add_assoc]
    simpa [get_size] using step (walkProcessed w) 0
  · intro files
    simp [get_size, walkProcessed]

/-- Unfolding equation of the `clean` loop on a safety-rejected item. -/
theorem cleanLoop_cons_rejected (pm : PkgManager) (home cwd : String) (fs : UserFS)
    (run : List String → RunOutcome) (item : CleanItem) (rest : List CleanItem)
    (s f : Nat) (errs : List String)
    (h : is_safe_to_delete pm home cwd item.path = false) :
    cleanLoop pm home cwd fs run (item :: rest) s f errs
      = cleanLoop pm home cwd fs run rest s (f + 1) errs := by
  simp [cleanLoop, h]

/-- Unfolding equation of the `clean` loop on a safe item whose deletion
succeeds. -/
theorem cleanLoop_cons_ok (pm : PkgManager) (home cwd : String) (fs : UserFS)
    (run : List String → RunOutcome) (item : CleanItem) (rest : List CleanItem)
    (s f : Nat) (errs : List String)
    (h : is_safe_to_delete pm home cwd item.path = true)
    (hr : (if item.system then clean_system pm run item.path else clean_user fs item.path).1 = true) :
    cleanLoop pm home cwd fs run (item :: rest) s f errs
      = cleanLoop pm home cwd fs run rest (s + 1) f errs := by
  simp [cleanLoop, h, hr]

/-- Unfolding equation of the `clean` loop on a safe item whose deletion
fails. -/
theorem cleanLoop_cons_fail (pm : PkgManager) (home cwd : String) (fs : UserFS)
    (run : List String → RunOutcome) (item : CleanItem) (rest : List CleanItem)
    (s f : Nat) (errs : List String)
    (h : is_safe_to_delete pm home cwd item.path = true)
    (hr : (if item.system then clean_system pm run item.path else clean_user fs item.path).1 = false) :
    cleanLoop pm home cwd fs run (item :: rest) s f errs
      = cleanLoop pm home cwd fs run rest s (f + 1)
          (errs ++ (if item.system then clean_system pm run item.path
                    else clean_user fs item.path).2.toList) := by
  simp [cleanLoop, h, hr]

/-- Accumulator invariant of the `clean` loop: each item adds exactly one
to one of the two counters, and the error list grows by at most one per
failure. -/
theorem cleanLoop_accum (pm : PkgManager) (home cwd : String) (fs : UserFS)
    (run : List String → RunOutcome) :
    ∀ (items : List CleanItem) (s f : Nat) (errs : List String),
      (cleanLoop pm home cwd fs run items s f errs).1
            + (cleanLoop pm home cwd fs run items s f errs).2.1
          = s + f + items.length
        ∧ (cleanLoop pm home cwd fs run items s f errs).2.2.length + f
          ≤ errs.length + (cleanLoop pm home cwd fs run items s f errs).2.1 := by
  intro items
  induction items with
  | nil => intro s f errs; simp [cleanLoop]
  | cons item rest ih =>
    intro s f errs
    cases hsafe : is_safe_to_delete pm home cwd item.path with
    | false =>
      rw [cleanLoop_cons_rejected pm home cwd fs run item rest s f errs hsafe]
      have := ih s (f + 1) errs
      simp only [List.length_cons]
      omega
    | true =>
      cases hr : (if item.system then clean_system pm run item.path
                  else clean_user fs item.path).1 with
      | true =>
        rw [cleanLoop_cons_ok pm home cwd fs run item rest s f errs hsafe hr]
        have := ih (s + 1) f errs
        simp only [List.length_cons]
        omega
      | false =>
        rw [cleanLoop_cons_fail pm home cwd fs run item rest s f errs hsafe hr]
        have := ih s (f + 1)
            (errs ++ (if item.system then clean_system pm run item.path
                      else clean_user fs item.path).2.toList)
        have hlen : (errs ++ (if item.system then clean_system pm run item.path
                              else clean_user fs item.path).2.toList).length
            ≤ errs.length + 1 := by
          rw [List.length_append]
          cases (if item.system then clean_system pm run item.path
                 else clean_user fs item.path).2 <;> simp
        simp only [List.length_cons]
        omega

/-- C10: `clean` counts every selected item exactly once — the returned
counts satisfy `success_count + fail_count = items.length` — the error
list never exceeds `fail_count`, and the empty selection yields
`(0, 0, [])`. -/
theorem clean_counts (pm : PkgManager) (home cwd : String) (fs : UserFS)
    (run : List String → RunOutcome) (items : List CleanItem) :
    (clean pm home cwd fs run items).1 + (clean pm home cwd fs run items).2.1
        = items.length
      ∧ (clean pm home cwd fs run items).2.2.length
          ≤ (clean pm home cwd fs run items).2.1
      ∧ clean pm home cwd fs run [] = (0, 0, []) := by
  have h := cleanLoop_accum pm home cwd fs run items 0 0 []
  refine ⟨?_, ?_, rfl⟩
  · have := h.1
    simpa [clean] using this
  · have := h.2
    simpa [clean] using this

/-- Shift of the `clean` loop accumulators: running the loop from
arbitrary accumulators equals the fresh run with the starting values
added in front. -/
theorem cleanLoop_shift (pm : PkgManager) (home cwd : String) (fs : UserFS)
    (run : List String → RunOutcome) :
    ∀ (items : List CleanItem) (s f : Nat) (errs : List String),
      cleanLoop pm home cwd fs run items s f errs
        = (s + (cleanLoop pm home cwd fs run items 0 0 []).1,
           f + (cleanLoop pm home cwd fs run items 0 0 []).2.1,
           errs ++ (cleanLoop pm home cwd fs run items 0 0 []).2.2) := by
  intro items
  induction items with
  | nil => intro s f errs; simp [cleanLoop]
  | cons item rest ih =>
    intro s f errs
    cases hsafe : is_safe_to_delete pm home cwd item.path with
    | false =>
      rw [cleanLoop_cons_rejected pm home cwd fs run item rest s f errs hsafe,
        cleanLoop_cons_rejected pm home cwd fs run item rest 0 0 [] hsafe,
        ih s (f + 1) errs, ih 0 1 []]
      simp [Prod.ext_iff]
      omega
    | true =>
      cases hr : (if item.system then clean_system pm run item.path
                  else clean_user fs item.path).1 with
      | true =>
        rw [cleanLoop_cons_ok pm home cwd fs run item rest s f errs hsafe hr,
          cleanLoop_cons_ok pm home cwd fs run item rest 0 0 [] hsafe hr,
          ih (s + 1) f errs, ih 1 0 []]
        simp [Prod.ext_iff]
        omega
      | false =>
        rw [cleanLoop_cons_fail pm home cwd fs run item rest s f errs hsafe hr,
          cleanLoop_cons_fail pm home cwd fs run item rest 0 0 [] hsafe hr,
          ih s (f + 1) _, ih 0 1 _]
        simp [Prod.ext_iff]
        omega

/-- C5: counterexample.  In the spec's own three-item scenario — one item
failing safety validation, one user-space success, one privileged
command cancelled — `clean` returns `(1, 2, [one error string])`, not
`(1, 2, [two error strings])`: the safety-rejected item increments
`fail_count` but appends nothing to the returned error list (its warning
is only logged). -/
theorem clean_scenario_one_error_counterexample :
    is_safe_to_delete .apt "/home/user" "/" "/opt/junk" = false
      ∧ clean .apt "/home/user" "/" scenarioFS scenarioRun scenarioItems
          = (1, 2, [err_auth_cancelled "/var/cache/apt/archives"])
      ∧ (clean .apt "/home/user" "/" scenarioFS scenarioRun scenarioItems).2.2.length ≠ 2 := by
  refine ⟨by decide, by decide, by decide⟩

/-- C5 amended: an item whose path fails the safety re-validation
increments `fail_count`, appends no message to the returned error list
(the classified warning is only logged), and triggers no filesystem
access or privileged command for that item (the loop body never consults
the deletion oracles for it); consequently the spec's three-item
scenario yields `(1, 2, [one error string])`. -/
theorem safety_rejected_adds_silent_failure (pm : PkgManager) (home cwd : String)
    (fs : UserFS) (run : List String → RunOutcome) (item : CleanItem)
    (rest : List CleanItem)
    (h : is_safe_to_delete pm home cwd item.path = false) :
    clean pm home cwd fs run (item :: rest)
        = ((clean pm home cwd fs run rest).1,
           (clean pm home cwd fs run rest).2.1 + 1,
           (clean pm home cwd fs run rest).2.2)
      ∧ clean .apt "/home/user" "/" scenarioFS scenarioRun scenarioItems
          = (1, 2, [err_auth_cancelled "/var/cache/apt/archives"]) := by
  constructor
  · show cleanLoop pm home cwd fs run (item :: rest) 0 0 [] = _
    rw [cleanLoop_cons_rejected pm home cwd fs run item rest 0 0 [] h,
      cleanLoop_shift pm home cwd fs run rest 0 1 []]
    simp [clean, Prod.ext_iff]
    omega
  · decide

/-- C5 amended witness: the unsafe path `/opt/junk` alone yields one
failure with an empty error list. -/
theorem safety_rejected_adds_silent_failure_witness :
    is_safe_to_delete .apt "/home/user" "/" "/opt/junk" = false
      ∧ clean .apt "/home/user" "/" scenarioFS scenarioRun
          [{ path := "/opt/junk", system := false }]
          = ((clean .apt "/home/user" "/" scenarioFS scenarioRun []).1,
             (clean .apt "/home/user" "/" scenarioFS scenarioRun []).2.1 + 1,
             (clean .apt "/home/user" "/" scenarioFS scenarioRun []).2.2) :=
  ⟨by decide,
   (safety_rejected_adds_silent_failure .apt "/home/user" "/" scenarioFS scenarioRun
      { path := "/opt/junk", system := false } [] (by decide)).1⟩

end GKHealter
